import Mathlib

/-!
Shallow embedding of the multi-tenant authorization layer
(`src/tenant.py`, `src/models.py`, `src/tenant_middleware.py`, `src/auth.py`).

Conventions of the embedding:
* `datetime.utcnow()` is modelled by an explicit `now : Nat` parameter; a
  `timedelta(days = d)` is the addend `d` in the same abstract time unit.
* `uuid.uuid4()` tokens/ids are supplied by the caller as explicit `String`
  arguments; where the proofs rely on uuid uniqueness this appears as a
  freshness hypothesis.
* Python `dict` (insertion-ordered, assignment updates in place or appends)
  is modelled by an association list with `dinsert` / `dget` / values =
  `List.map Prod.snd`.
* Python truthiness on `Optional[str]` (`if s:`) is: not `None` and not `""`.
  Dataclass instances are always truthy.
* In-place mutation of a `Tenant` held by the store (Python aliasing) is
  modelled by replacing the store's entry for that tenant id.
-/

namespace Spec2Proof

/-- Python-dict get: first binding of the key, if any. -/
def dget {α : Type} : List (String × α) → String → Option α
  | [], _ => none
  | (j, v) :: rest, i => if j = i then some v else dget rest i

/-- Python-dict assignment `m[i] = v`: update in place if present
(keeping its position), append otherwise. -/
def dinsert {α : Type} : List (String × α) → String → α → List (String × α)
  | [], i, v => [(i, v)]
  | (j, w) :: rest, i, v =>
    if j = i then (j, v) :: rest else (j, w) :: dinsert rest i v

/-- Replace the value bound at key `i` (if any) by its image under `f`,
keeping positions: models in-place mutation of the object stored at `i`. -/
def dupdate {α : Type} : List (String × α) → String → (α → α) → List (String × α)
  | [], _, _ => []
  | (j, w) :: rest, i, f =>
    if j = i then (j, f w) :: dupdate rest i f else (j, w) :: dupdate rest i f

/-- `TenantAuthKey` (src/tenant.py): tenant credential with expiration. -/
structure TenantAuthKey where
  key : String
  created_at : Nat
  expires_at : Nat
  active : Bool
  deriving Repr, DecidableEq

namespace TenantAuthKey

/-- `TenantAuthKey.create`: fresh token `tok`, created now, expiring
`expiration_days` later, active. -/
def create (now : Nat) (expiration_days : Nat) (tok : String) : TenantAuthKey :=
  { key := tok, created_at := now, expires_at := now + expiration_days, active := true }

/-- `is_valid`: active and strictly before expiry. -/
def is_valid (k : TenantAuthKey) (now : Nat) : Bool :=
  k.active && decide (now < k.expires_at)

/-- `revoke`: one-way `active := false`. -/
def revoke (k : TenantAuthKey) : TenantAuthKey :=
  { k with active := false }

end TenantAuthKey

/-- `Tenant` (src/tenant.py): an organization with rotating auth keys. -/
structure Tenant where
  id : String
  name : String
  domain : String
  created_at : Nat
  auth_keys : List TenantAuthKey
  active : Bool
  metadata : List (String × String)
  deriving Repr, DecidableEq

namespace Tenant

/-- `Tenant.create`: fresh id, exactly one initial auth key (via
`__post_init__`), active, default 365-day expiry. -/
def create (name domain : String) (metadata : List (String × String))
    (now : Nat) (idTok keyTok : String) : Tenant :=
  { id := idTok, name := name, domain := domain, created_at := now,
    auth_keys := [TenantAuthKey.create now 365 keyTok], active := true,
    metadata := metadata }

/-- `get_valid_auth_key`: first key in insertion order that `is_valid`. -/
def get_valid_auth_key (t : Tenant) (now : Nat) : Option TenantAuthKey :=
  t.auth_keys.find? (fun k => k.is_valid now)

/-- `generate_new_auth_key`: append a fresh key; returns (new key, updated tenant). -/
def generate_new_auth_key (t : Tenant) (now : Nat) (expiration_days : Nat)
    (tok : String) : TenantAuthKey × Tenant :=
  let new_key := TenantAuthKey.create now expiration_days tok
  (new_key, { t with auth_keys := t.auth_keys ++ [new_key] })

/-- Helper for `revoke_auth_key`: revoke the first key whose token matches. -/
def revokeFirst : List TenantAuthKey → String → Bool × List TenantAuthKey
  | [], _ => (false, [])
  | k :: rest, key =>
    if k.key = key then (true, k.revoke :: rest)
    else ((revokeFirst rest key).1, k :: (revokeFirst rest key).2)

/-- `revoke_auth_key`: revoke the first key with the given token; returns
whether a key was found, and the updated tenant. -/
def revoke_auth_key (t : Tenant) (key : String) : Bool × Tenant :=
  let (found, keys') := revokeFirst t.auth_keys key
  (found, { t with auth_keys := keys' })

/-- `deactivate`: set inactive and revoke every auth key. -/
def deactivate (t : Tenant) : Tenant :=
  { t with active := false, auth_keys := t.auth_keys.map TenantAuthKey.revoke }

/-- `reactivate`: only acts on an inactive tenant; sets it active and, if no
valid key remains, mints one (default 365-day expiry, token `tok`). -/
def reactivate (t : Tenant) (now : Nat) (tok : String) : Tenant :=
  if t.active then t
  else
    let t' := { t with active := true }
    match t'.get_valid_auth_key now with
    | some _ => t'
    | none => (t'.generate_new_auth_key now 365 tok).2

end Tenant

/-- `TenantContext` (src/tenant.py): per-request pairing of tenant id and tenant. -/
structure TenantContext where
  tenant_id : String
  tenant : Tenant
  deriving Repr, DecidableEq

/-- `TenantContext.is_valid`: the referenced tenant is active. -/
def TenantContext.is_valid (c : TenantContext) : Bool :=
  c.tenant.active

/-- `TenantStore` (src/tenant.py): tenants dict plus auth-key → tenant-id index. -/
structure TenantStore where
  tenants : List (String × Tenant)
  auth_key_to_tenant : List (String × String)
  deriving Repr, DecidableEq

namespace TenantStore

/-- `TenantStore.__init__`: both dicts empty. -/
def empty : TenantStore := { tenants := [], auth_key_to_tenant := [] }

/-- `create_tenant`: create, store, and index every auth key of the new tenant. -/
def create_tenant (s : TenantStore) (name domain : String)
    (metadata : List (String × String)) (now : Nat) (idTok keyTok : String) :
    Tenant × TenantStore :=
  let tenant := Tenant.create name domain metadata now idTok keyTok
  let tenants' := dinsert s.tenants tenant.id tenant
  let index' := tenant.auth_keys.foldl
    (fun ix k => dinsert ix k.key tenant.id) s.auth_key_to_tenant
  (tenant, { tenants := tenants', auth_key_to_tenant := index' })

/-- `get_tenant`: dict lookup by id. -/
def get_tenant (s : TenantStore) (tenant_id : String) : Option Tenant :=
  dget s.tenants tenant_id

/-- `get_tenant_by_auth_key`: index lookup, then defensive re-validation that
the tenant's current first valid key is exactly the looked-up token. -/
def get_tenant_by_auth_key (s : TenantStore) (auth_key : String) (now : Nat) :
    Option Tenant :=
  match dget s.auth_key_to_tenant auth_key with
  | none => none
  | some tenant_id =>
    if tenant_id ≠ "" then
      match s.get_tenant tenant_id with
      | none => none
      | some tenant =>
        match tenant.get_valid_auth_key now with
        | none => none
        | some k => if k.key = auth_key then some tenant else none
    else none

/-- `get_tenant_by_domain`: first stored tenant (insertion order) whose
domain matches and which is active. -/
def get_tenant_by_domain (s : TenantStore) (domain : String) : Option Tenant :=
  (s.tenants.map Prod.snd).find? (fun t => t.domain = domain && t.active)

/-- `list_tenants`: all active tenants in insertion order. -/
def list_tenants (s : TenantStore) : List Tenant :=
  (s.tenants.map Prod.snd).filter (fun t => t.active)

/-- Aliasing helper: mutating a stored `Tenant` object in Python updates the
store's dict entry in place; modelled as an entry replacement at that id. -/
def updateStored (s : TenantStore) (tenant_id : String) (f : Tenant → Tenant) :
    TenantStore :=
  { s with tenants := dupdate s.tenants tenant_id f }

/-- `deactivate_tenant`: deactivate the stored tenant, if present. -/
def deactivate_tenant (s : TenantStore) (tenant_id : String) : Bool × TenantStore :=
  match s.get_tenant tenant_id with
  | none => (false, s)
  | some _ => (true, s.updateStored tenant_id Tenant.deactivate)

/-- `reactivate_tenant`: reactivate the stored tenant, then (re-)index every
currently valid key of it. -/
def reactivate_tenant (s : TenantStore) (tenant_id : String) (now : Nat)
    (tok : String) : Bool × TenantStore :=
  match s.get_tenant tenant_id with
  | none => (false, s)
  | some tenant =>
    let tenant' := tenant.reactivate now tok
    let s' := s.updateStored tenant_id (fun _ => tenant')
    let index' := tenant'.auth_keys.foldl
      (fun ix k => if k.is_valid now then dinsert ix k.key tenant_id else ix)
      s'.auth_key_to_tenant
    (true, { s' with auth_key_to_tenant := index' })

end TenantStore

/-- `Role` (src/models.py): named bundle of permission strings.
(`private` is a Lean keyword, hence the field name `priv`.) -/
structure Role where
  name : String
  label : String
  priv : Bool
  permissions : List String
  deriving Repr, DecidableEq

/-- `User` (src/models.py): identity with roles and owned resources. -/
structure User where
  email : String
  name : String
  roles : List Role
  owner_of : List String
  deriving Repr, DecidableEq

/-- `User.has_role`: some held role has that name. -/
def User.has_role (u : User) (role_name : String) : Bool :=
  u.roles.any (fun r => r.name = role_name)

/-- `User.owns_resource`: resource id is in `owner_of`. -/
def User.owns_resource (u : User) (resource_id : String) : Bool :=
  u.owner_of.contains resource_id

/-- `RoleAuthorization` (src/models.py). -/
structure RoleAuthorization where
  required_roles : List String

/-- `RoleAuthorization.authorize`: false for a null user, else true iff the
user has any of the required roles. -/
def RoleAuthorization.authorize (a : RoleAuthorization) (user : Option User) : Bool :=
  match user with
  | none => false
  | some u => a.required_roles.any (fun role_name => u.has_role role_name)

/-- `OwnershipAuthorization` (src/models.py). -/
def OwnershipAuthorization.authorize (user : Option User)
    (resource_id : Option String) : Bool :=
  match user, resource_id with
  | some u, some rid => if rid ≠ "" then u.owns_resource rid else false
  | _, _ => false

/-- `AuthorizationExclusion` (src/models.py). -/
structure AuthorizationExclusion where
  excluded_roles : List String

/-- `AuthorizationExclusion.authorize`: true for a null user, else true iff
the user holds none of the excluded roles. -/
def AuthorizationExclusion.authorize (a : AuthorizationExclusion)
    (user : Option User) : Bool :=
  match user with
  | none => true
  | some u => !(a.excluded_roles.any (fun role_name => u.has_role role_name))

/-!
Tenant resolution middleware (src/tenant_middleware.py).

A request is modelled by its four tenant-relevant headers; a `none` field is
an absent header. Python truthiness on a header (`if h:`) is `truthy`.
-/

/-- The headers `TenantMiddleware._extract_tenant` reads. -/
structure Request where
  x_tenant_key : Option String
  host : Option String
  x_tenant_domain : Option String
  x_tenant_id : Option String
  deriving Repr, DecidableEq

/-- Python truthiness of an `Optional[str]`. -/
def truthy : Option String → Bool
  | none => false
  | some s => s ≠ ""

/-- `host.split(":")[0]`: the part of the host before the first colon. -/
def stripPort (h : String) : String :=
  (h.splitOn ":").headD ""

/-- `TenantMiddleware._extract_tenant`: X-Tenant-Key auth-key lookup first,
then Host / X-Tenant-Domain with the port stripped, then X-Tenant-ID; each
rule falls through to the next when it yields no tenant. -/
def extract_tenant (s : TenantStore) (req : Request) (now : Nat) : Option Tenant :=
  let byKey :=
    match req.x_tenant_key with
    | some auth_key =>
      if auth_key ≠ "" then s.get_tenant_by_auth_key auth_key now else none
    | none => none
  match byKey with
  | some t => some t
  | none =>
    let host := if truthy req.host then req.host else req.x_tenant_domain
    let byDomain :=
      match host with
      | some h => if h ≠ "" then s.get_tenant_by_domain (stripPort h) else none
      | none => none
    match byDomain with
    | some t => some t
    | none =>
      match req.x_tenant_id with
      | some tid => if tid ≠ "" then s.get_tenant tid else none
      | none => none

/-- Outcome of `TenantMiddleware.dispatch`: an HTTP rejection, or the
handler's response on the populated tenant context. -/
inductive DispatchOutcome (ρ : Type) where
  | rejected (statusCode : Nat)
  | handled (response : ρ)
  deriving Repr, DecidableEq

/-- `TenantMiddleware.dispatch`: no tenant ⇒ 401; inactive tenant ⇒ 403;
otherwise the handler runs with the tenant context set. -/
def dispatch {ρ : Type} (s : TenantStore) (req : Request) (now : Nat)
    (handler : TenantContext → ρ) : DispatchOutcome ρ :=
  match extract_tenant s req now with
  | none => .rejected 401
  | some tenant =>
    if !tenant.active then .rejected 403
    else .handled (handler { tenant_id := tenant.id, tenant := tenant })

/-!
Request-context globals (src/auth.py `_current_user`,
src/tenant_middleware.py `_current_tenant`).

Both are single module-level mutable slots shared by every concurrently
processed request. `AuthorizationMiddleware.dispatch` performs, for a request
carrying user `u`: assign the slot to `u`, `await call_next` (during which the
handler reads the slot via `get_current_user`), then in `finally` assign the
slot to `None`. The awaits let the scheduler interleave the per-request
sequences of two concurrent requests arbitrarily, preserving each request's
own order.
-/

/-- One primitive action of a request on the shared current-user slot. -/
inductive SlotEvent where
  | assign (u : Option User)
  | readSlot
  deriving Repr, DecidableEq

/-- The slot actions `AuthorizationMiddleware.dispatch` performs for one
request whose resolved user is `u`: set it, read it mid-request (the handler
calling `get_current_user`), clear it in `finally`. -/
def requestScript (u : User) : List SlotEvent :=
  [.assign (some u), .readSlot, .assign none]

/-- Run a schedule of (request-label, action) pairs against the single shared
slot, logging for each `readSlot` the label and the value it observed. -/
def runSchedule : List (Bool × SlotEvent) → Option User →
    List (Bool × Option User)
  | [], _ => []
  | (_, .assign u) :: rest, _ => runSchedule rest u
  | (lbl, .readSlot) :: rest, slot => (lbl, slot) :: runSchedule rest slot

/-- `sched` is an interleaving of request A's actions (label `false`) and
request B's actions (label `true`): each request's own actions appear in
order. -/
def IsInterleaving (sched : List (Bool × SlotEvent))
    (a b : List SlotEvent) : Prop :=
  ((sched.filter (fun p => !p.1)).map Prod.snd = a) ∧
  ((sched.filter (fun p => p.1)).map Prod.snd = b)

/-!
Concrete stores, tenants, users and requests used by the witness and
counterexample theorems below.
-/

/-- An active tenant whose only auth key has been revoked: zero valid keys,
yet `reactivate` (which guards on `if not self.active`) does nothing to it. -/
def c4_t : Tenant :=
  { id := "t1", name := "A", domain := "a.local", created_at := 0,
    auth_keys := [{ key := "K1", created_at := 0, expires_at := 365, active := false }],
    active := true, metadata := [] }

/-- An inactive tenant whose only auth key has been revoked. -/
def c4_wt : Tenant :=
  { id := "t2", name := "B", domain := "b.local", created_at := 0,
    auth_keys := [{ key := "K1", created_at := 0, expires_at := 365, active := false }],
    active := false, metadata := [] }

/-- A currently valid auth key. -/
def c7_k1 : TenantAuthKey :=
  { key := "K1", created_at := 0, expires_at := 400, active := true }

/-- A tenant holding only `c7_k1`. -/
def c7_t : Tenant :=
  { id := "t7", name := "C", domain := "c.local", created_at := 0,
    auth_keys := [c7_k1], active := true, metadata := [] }

/-- A second, still-valid key of the C6 tenant. -/
def c6_k2 : TenantAuthKey :=
  { key := "K2", created_at := 0, expires_at := 365, active := true }

/-- A stored tenant holding two valid keys `K1` and `K2`. -/
def c6_t : Tenant :=
  { id := "t6", name := "D", domain := "d.local", created_at := 0,
    auth_keys := [{ key := "K1", created_at := 0, expires_at := 365, active := true },
                  c6_k2],
    active := true, metadata := [] }

/-- The C6 store: `c6_t` stored under `"t6"`, both keys indexed. -/
def c6_s : TenantStore :=
  { tenants := [("t6", c6_t)],
    auth_key_to_tenant := [("K1", "t6"), ("K2", "t6")] }

/-- Rule 1 of `_extract_tenant`: X-Tenant-Key auth-key lookup. -/
def rule_auth_key (s : TenantStore) (req : Request) (now : Nat) : Option Tenant :=
  match req.x_tenant_key with
  | some auth_key =>
    if auth_key ≠ "" then s.get_tenant_by_auth_key auth_key now else none
  | none => none

/-- Rule 2 of `_extract_tenant`: Host (falling back to X-Tenant-Domain by
Python `or`) domain lookup with the port suffix stripped. -/
def rule_host_domain (s : TenantStore) (req : Request) : Option Tenant :=
  match (if truthy req.host then req.host else req.x_tenant_domain) with
  | some h => if h ≠ "" then s.get_tenant_by_domain (stripPort h) else none
  | none => none

/-- Rule 3 of `_extract_tenant`: X-Tenant-ID direct id lookup. -/
def rule_tenant_id (s : TenantStore) (req : Request) : Option Tenant :=
  match req.x_tenant_id with
  | some tid => if tid ≠ "" then s.get_tenant tid else none
  | none => none

/-- An active tenant with the indexed valid key `KA`. -/
def c2_tA : Tenant :=
  { id := "t2a", name := "A2", domain := "a2.local", created_at := 0,
    auth_keys := [{ key := "KA", created_at := 0, expires_at := 365, active := true }],
    active := true, metadata := [] }

/-- An inactive tenant reachable only by id. -/
def c2_tI : Tenant :=
  { id := "t2i", name := "I2", domain := "i2.local", created_at := 0,
    auth_keys := [], active := false, metadata := [] }

/-- The C2 store holding both tenants. -/
def c2_s : TenantStore :=
  { tenants := [("t2a", c2_tA), ("t2i", c2_tI)],
    auth_key_to_tenant := [("KA", "t2a")] }

/-- A request with no tenant-identifying header. -/
def c2_req401 : Request :=
  { x_tenant_key := none, host := none, x_tenant_domain := none, x_tenant_id := none }

/-- A request naming the inactive tenant by id. -/
def c2_req403 : Request :=
  { x_tenant_key := none, host := none, x_tenant_domain := none,
    x_tenant_id := some "t2i" }

/-- A request carrying the active tenant's auth key. -/
def c2_reqOK : Request :=
  { x_tenant_key := some "KA", host := none, x_tenant_domain := none,
    x_tenant_id := none }

/-- Request A's user. -/
def c3_alice : User :=
  { email := "alice@school.edu", name := "Alice", roles := [], owner_of := [] }

/-- Request B's user. -/
def c3_bob : User :=
  { email := "bob@school.edu", name := "Bob", roles := [], owner_of := [] }

/-- A legal interleaving of two concurrent requests: A assigns its user, B
assigns its user, A's handler reads, A clears, B's handler reads, B clears. -/
def c3_sched : List (Bool × SlotEvent) :=
  [(false, .assign (some c3_alice)), (true, .assign (some c3_bob)),
   (false, .readSlot), (false, .assign none),
   (true, .readSlot), (true, .assign none)]

/-- Tenant-store states reachable by the store and tenant operations.
Tenant-level operations (`generate_new_auth_key`, `revoke_auth_key`) act on a
stored tenant through Python aliasing, i.e. on the store's entry for it.
The uuid token minted by `generate_new_auth_key` is modelled as fresh: it is
absent from the key index (uuid collisions are practically impossible). -/
inductive Reachable : TenantStore → Prop where
  | empty : Reachable TenantStore.empty
  | create (s : TenantStore) (name domain : String) (md : List (String × String))
      (now : Nat) (idTok keyTok : String) :
      Reachable s →
      Reachable (s.create_tenant name domain md now idTok keyTok).2
  | generate (s : TenantStore) (tid : String) (now days : Nat) (tok : String) :
      Reachable s →
      dget s.auth_key_to_tenant tok = none →
      Reachable (s.updateStored tid
        (fun u => (u.generate_new_auth_key now days tok).2))
  | revoke (s : TenantStore) (tid kstr : String) :
      Reachable s →
      Reachable (s.updateStored tid (fun u => (u.revoke_auth_key kstr).2))
  | deactivate (s : TenantStore) (tid : String) :
      Reachable s →
      Reachable (s.deactivate_tenant tid).2
  | reactivate (s : TenantStore) (tid : String) (now : Nat) (tok : String) :
      Reachable s →
      Reachable (s.reactivate_tenant tid now tok).2

/-- The safety invariant behind C10: for every inactive stored tenant, every
index entry pointing at it names a token whose matching keys (if any) are
revoked, so the defensive re-validation in `get_tenant_by_auth_key` can never
succeed for an inactive tenant. -/
def KeyInvariant (s : TenantStore) : Prop :=
  ∀ i t, dget s.tenants i = some t → t.active = false →
    ∀ x, dget s.auth_key_to_tenant x = some i →
      ∀ k ∈ t.auth_keys, k.key = x → k.active = false

/-- A store holding one freshly created tenant, for the C10 witness. -/
def c10_s : TenantStore :=
  (TenantStore.empty.create_tenant "M" "m.local" [] 0 "tX" "KX").2

/-- The tenant stored in `c10_s`. -/
def c10_t : Tenant := Tenant.create "M" "m.local" [] 0 "tX" "KX"

/-- The store after creating one tenant with key `K1`. -/
def c1_s1 : TenantStore :=
  (TenantStore.empty.create_tenant "M1" "m1.local" [] 0 "tO" "K1").2

/-- `c1_s1` after the stored tenant generates a second key `K2`
(`generate_new_auth_key` does not touch the store's key index). -/
def c1_s2 : TenantStore :=
  c1_s1.updateStored "tO" (fun u => (u.generate_new_auth_key 0 365 "K2").2)

/-- The stored tenant of `c1_s2`, holding keys `K1` and `K2`. -/
def c1_t2 : Tenant :=
  ((Tenant.create "M1" "m1.local" [] 0 "tO" "K1").generate_new_auth_key 0 365
    "K2").2

/-- The newly generated key `K2`. -/
def c1_k2 : TenantAuthKey := TenantAuthKey.create 0 365 "K2"

/-- The C1 witness tenant's sole (valid, indexed) key. -/
def c1w_k : TenantAuthKey :=
  { key := "KW", created_at := 0, expires_at := 365, active := true }

/-- The C1 witness tenant. -/
def c1w_t : Tenant :=
  { id := "tW", name := "W", domain := "w.local", created_at := 0,
    auth_keys := [c1w_k], active := true, metadata := [] }

/-- The C1 witness store: `c1w_t` stored and its key indexed. -/
def c1w_s : TenantStore :=
  { tenants := [("tW", c1w_t)], auth_key_to_tenant := [("KW", "tW")] }

/-!
Lemmas and claim theorems.
-/

theorem dget_dinsert_self {α : Type} (m : List (String × α)) (i : String) (v : α) :
    dget (dinsert m i v) i = some v := by
  induction m with
  | nil => simp [dinsert, dget]
  | cons p rest ih =>
    obtain ⟨a, w⟩ := p
    by_cases h : a = i
    · simp [dinsert, dget, h]
    · simp [dinsert, dget, h, ih]

theorem dget_dinsert_ne {α : Type} (m : List (String × α)) (i j : String) (v : α)
    (h : j ≠ i) : dget (dinsert m i v) j = dget m j := by
  induction m with
  | nil => simp [dinsert, dget, Ne.symm h]
  | cons p rest ih =>
    obtain ⟨a, w⟩ := p
    by_cases ha : a = i
    · subst ha
      simp [dinsert, dget, Ne.symm h]
    · simp only [dinsert, if_neg ha, dget]
      by_cases haj : a = j <;> simp [haj, ih]

theorem dget_eq_none_iff {α : Type} (m : List (String × α)) (i : String) :
    dget m i = none ↔ ∀ p ∈ m, p.1 ≠ i := by
  induction m with
  | nil => simp [dget]
  | cons p rest ih =>
    obtain ⟨a, w⟩ := p
    by_cases h : a = i <;> simp [dget, h, ih]

theorem dget_append {α : Type} (m m' : List (String × α)) (i : String) :
    dget (m ++ m') i = (dget m i).or (dget m' i) := by
  induction m with
  | nil => simp [dget]
  | cons p rest ih =>
    obtain ⟨a, w⟩ := p
    by_cases h : a = i <;> simp [dget, h, ih]

theorem dinsert_of_dget_none {α : Type} (m : List (String × α)) (i : String) (v : α)
    (h : dget m i = none) : dinsert m i v = m ++ [(i, v)] := by
  induction m with
  | nil => simp [dinsert]
  | cons p rest ih =>
    obtain ⟨a, w⟩ := p
    by_cases ha : a = i
    · simp [dget, ha] at h
    · simp [dget, ha] at h
      simp [dinsert, ha, ih h]

theorem dget_dupdate {α : Type} (m : List (String × α)) (i j : String)
    (f : α → α) :
    dget (dupdate m i f) j = if j = i then (dget m j).map f else dget m j := by
  induction m with
  | nil => by_cases h : j = i <;> simp [dget, dupdate, h]
  | cons p rest ih =>
    obtain ⟨a, w⟩ := p
    by_cases hai : a = i
    · subst hai
      by_cases haj : a = j
      · subst haj
        simp [dget, dupdate, ih]
      · simp [dget, dupdate, haj, Ne.symm haj, ih]
    · by_cases haj : a = j
      · subst haj
        simp [dget, dupdate, hai, ih, Ne.symm hai]
      · simp [dget, dupdate, hai, haj, ih]

theorem dupdate_of_dget_none {α : Type} (m : List (String × α)) (i : String)
    (f : α → α) (h : dget m i = none) : dupdate m i f = m := by
  induction m with
  | nil => simp [dupdate]
  | cons p rest ih =>
    obtain ⟨a, w⟩ := p
    by_cases ha : a = i
    · simp [dget, ha] at h
    · simp [dget, ha] at h
      simp [dupdate, ha, ih h]

theorem dupdate_append {α : Type} (m l : List (String × α)) (i : String)
    (f : α → α) : dupdate (m ++ l) i f = dupdate m i f ++ dupdate l i f := by
  induction m with
  | nil => simp [dupdate]
  | cons p rest ih =>
    obtain ⟨a, w⟩ := p
    by_cases ha : a = i <;> simp [dupdate, ha, ih]

/-- C8: `RoleAuthorization(R).authorize(U)` is true iff `U` is non-null and
some role held by `U` has a name occurring in `R` (OR semantics across `R`);
it is false whenever `U` is null. -/
theorem c8_role_authorization_iff (R : List String) (u : Option User) :
    ((RoleAuthorization.mk R).authorize u = true ↔
      ∃ uu, u = some uu ∧ ∃ r ∈ uu.roles, r.name ∈ R) ∧
    (RoleAuthorization.mk R).authorize none = false := by
  refine ⟨?_, by simp [RoleAuthorization.authorize]⟩
  cases u with
  | none => simp [RoleAuthorization.authorize]
  | some uu =>
    simp only [RoleAuthorization.authorize, User.has_role, List.any_eq_true,
      decide_eq_true_eq, Option.some.injEq]
    constructor
    · rintro ⟨rn, hrn, r, hr, hname⟩
      exact ⟨uu, rfl, r, hr, hname ▸ hrn⟩
    · rintro ⟨uu', huu, r, hr, hname⟩
      cases huu
      exact ⟨r.name, hname, r, hr, rfl⟩

/-- C9: `AuthorizationExclusion(E).authorize(user)` is true iff the user is
null or holds none of the roles named in `E`; in particular `authorize(null)`
is true for every `E`, including `E = []` and `E = ["admin"]`. -/
theorem c9_exclusion_iff (E : List String) (u : Option User) :
    ((AuthorizationExclusion.mk E).authorize u = true ↔
      (u = none ∨ ∃ uu, u = some uu ∧ ∀ r ∈ uu.roles, r.name ∉ E)) ∧
    (AuthorizationExclusion.mk E).authorize none = true ∧
    (AuthorizationExclusion.mk []).authorize none = true ∧
    (AuthorizationExclusion.mk ["admin"]).authorize none = true := by
  refine ⟨?_, by simp [AuthorizationExclusion.authorize],
    by simp [AuthorizationExclusion.authorize],
    by simp [AuthorizationExclusion.authorize]⟩
  cases u with
  | none => simp [AuthorizationExclusion.authorize]
  | some uu =>
    simp only [AuthorizationExclusion.authorize, User.has_role,
      Bool.not_eq_true', List.any_eq_false, decide_eq_true_eq,
      Option.some.injEq, reduceCtorEq, false_or]
    constructor
    · intro h
      refine ⟨uu, rfl, fun r hr hname => ?_⟩
      have := h r.name hname
      simp [List.any_eq_true] at this
      exact this r hr rfl
    · rintro ⟨uu', huu, h⟩
      cases huu
      intro rn hrn
      simp [List.any_eq_true]
      intro r hr hname
      exact h r hr (hname ▸ hrn)

/-- C4 counterexample: `c4_t` is a tenant with zero currently-valid auth keys,
and after `reactivate()` it is active — but zero (not exactly one) valid auth
keys exist afterward, because `reactivate` is a no-op on an already-active
tenant. -/
theorem c4_counterexample :
    c4_t.auth_keys.countP (fun k => k.is_valid 0) = 0 ∧
    (c4_t.reactivate 0 "K2").active = true ∧
    ¬((c4_t.reactivate 0 "K2").auth_keys.countP (fun k => k.is_valid 0) = 1) := by
  refine ⟨by decide, by decide, by decide⟩

/-- C4 (amended): for every **inactive** tenant with zero currently-valid auth
keys, `reactivate()` leaves the tenant active with exactly one valid auth key
afterward. -/
theorem c4_reactivate_inactive_mints_one_key (t : Tenant) (now : Nat) (tok : String)
    (hact : t.active = false)
    (hnov : t.auth_keys.countP (fun k => k.is_valid now) = 0) :
    (t.reactivate now tok).active = true ∧
    (t.reactivate now tok).auth_keys.countP (fun k => k.is_valid now) = 1 := by
  have hall := List.countP_eq_zero.mp hnov
  have hfind : ({ t with active := true } : Tenant).get_valid_auth_key now = none := by
    simp only [Tenant.get_valid_auth_key, List.find?_eq_none]
    intro k hk
    simpa using hall k hk
  simp only [Tenant.reactivate, hact, Bool.false_eq_true, if_false, hfind,
    Tenant.generate_new_auth_key, TenantAuthKey.create]
  refine ⟨by trivial, ?_⟩
  rw [List.countP_append, hnov]
  simp [TenantAuthKey.is_valid]

/-- C4 witness: the amended theorem applied to a concrete inactive tenant
with zero valid keys. -/
theorem c4_witness :
    c4_wt.active = false ∧
    c4_wt.auth_keys.countP (fun k => k.is_valid 0) = 0 ∧
    (c4_wt.reactivate 0 "K2").active = true ∧
    (c4_wt.reactivate 0 "K2").auth_keys.countP (fun k => k.is_valid 0) = 1 := by
  have h := c4_reactivate_inactive_mints_one_key c4_wt 0 "K2" (by decide) (by decide)
  exact ⟨by decide, by decide, h.1, h.2⟩

/-- C7: after `generate_new_auth_key`, a previously issued key that is not
separately revoked (`active`) and not yet expired still satisfies `is_valid`;
and `get_valid_auth_key` returns the first key in insertion order satisfying
`is_valid` — some valid key preceded only by invalid keys — or none exactly
when no key is valid. -/
theorem c7_rotation_and_first_valid (t : Tenant) (now nowLater days : Nat)
    (tok : String) :
    (∀ k, k ∈ t.auth_keys → k.active = true → nowLater < k.expires_at →
      k ∈ ((t.generate_new_auth_key now days tok).2).auth_keys ∧
      k.is_valid nowLater = true) ∧
    (∀ k, t.get_valid_auth_key now = some k →
      k.is_valid now = true ∧
      ∃ l1 l2, t.auth_keys = l1 ++ k :: l2 ∧ ∀ k' ∈ l1, k'.is_valid now = false) ∧
    (t.get_valid_auth_key now = none → ∀ k ∈ t.auth_keys, k.is_valid now = false) := by
  refine ⟨?_, ?_, ?_⟩
  · intro k hk hact hexp
    refine ⟨?_, ?_⟩
    · simp only [Tenant.generate_new_auth_key]
      exact List.mem_append_left _ hk
    · simp [TenantAuthKey.is_valid, hact, hexp]
  · intro k hfound
    have h := List.find?_eq_some.mp hfound
    obtain ⟨hp, as, bs, heq, hbefore⟩ := h
    refine ⟨hp, as, bs, heq, fun k' hk' => ?_⟩
    have := hbefore k' hk'
    simpa using this
  · intro hnone k hk
    have := List.find?_eq_none.mp hnone k hk
    simpa using this

/-- C7 witness: the theorem applied to a concrete tenant and key. -/
theorem c7_witness :
    c7_k1 ∈ c7_t.auth_keys ∧ c7_k1.active = true ∧ 10 < c7_k1.expires_at ∧
    c7_k1 ∈ ((c7_t.generate_new_auth_key 10 365 "K2").2).auth_keys ∧
    c7_k1.is_valid 10 = true := by
  have h := (c7_rotation_and_first_valid c7_t 10 10 365 "K2").1 c7_k1
    (by decide) (by decide) (by decide)
  exact ⟨by decide, by decide, by decide, h.1, h.2⟩

/-- Every key in the list after `revoke_auth_key` has the token of a key that
was already in the list, and is active only if that key was active. -/
theorem revokeFirst_mem (keys : List TenantAuthKey) (kstr : String) :
    ∀ k' ∈ (Tenant.revokeFirst keys kstr).2,
      ∃ k ∈ keys, k'.key = k.key ∧ (k'.active = true → k.active = true) := by
  induction keys with
  | nil => simp [Tenant.revokeFirst]
  | cons k rest ih =>
    intro k' hk'
    by_cases h : k.key = kstr
    · simp only [Tenant.revokeFirst, if_pos h, List.mem_cons] at hk'
      rcases hk' with hk' | hk'
      · exact ⟨k, List.mem_cons_self k rest, by simp [hk', TenantAuthKey.revoke]⟩
      · exact ⟨k', List.mem_cons_of_mem k hk', rfl, fun h => h⟩
    · simp only [Tenant.revokeFirst, if_neg h, List.mem_cons] at hk'
      rcases hk' with hk' | hk'
      · exact ⟨k, List.mem_cons_self k rest, by simp [hk']⟩
      · obtain ⟨k0, hk0, hkey, hact⟩ := ih k' hk'
        exact ⟨k0, List.mem_cons_of_mem k hk0, hkey, hact⟩

/-- If the tenant's key tokens are pairwise distinct (uuid uniqueness), then
after revoking token `kstr` no key with that token remains active. -/
theorem revokeFirst_no_valid_match (keys : List TenantAuthKey) (kstr : String)
    (hnodup : (keys.map TenantAuthKey.key).Nodup) :
    ∀ k' ∈ (Tenant.revokeFirst keys kstr).2, k'.key = kstr → k'.active = false := by
  induction keys with
  | nil => simp [Tenant.revokeFirst]
  | cons k rest ih =>
    intro k' hk' hkey
    by_cases h : k.key = kstr
    · simp only [Tenant.revokeFirst, if_pos h, List.mem_cons] at hk'
      rcases hk' with hk' | hk'
      · simp [hk', TenantAuthKey.revoke]
      · exfalso
        have hmem : k'.key ∈ rest.map TenantAuthKey.key := List.mem_map_of_mem _ hk'
        have hhead : k.key ∉ rest.map TenantAuthKey.key := by
          rw [List.map_cons] at hnodup
          exact (List.nodup_cons.mp hnodup).1
        exact hhead (by rw [h, ← hkey]; exact hmem)
    · simp only [Tenant.revokeFirst, if_neg h, List.mem_cons] at hk'
      rcases hk' with hk' | hk'
      · exact absurd (hk' ▸ hkey) h
      · have htail : (rest.map TenantAuthKey.key).Nodup := by
          rw [List.map_cons] at hnodup
          exact (List.nodup_cons.mp hnodup).2
        exact ih htail k' hk' hkey

/-- C6: after revoking one specific auth key `kstr` of a stored tenant (whose
key tokens are pairwise distinct, as uuids are), `get_tenant_by_auth_key kstr`
returns none — even though the tenant may remain active with another valid
key. -/
theorem c6_revoked_key_resolves_none (s : TenantStore) (tid : String) (t : Tenant)
    (kstr : String) (now : Nat)
    (hstored : dget s.tenants tid = some t)
    (hindex : dget s.auth_key_to_tenant kstr = some tid)
    (hnodup : (t.auth_keys.map TenantAuthKey.key).Nodup) :
    (s.updateStored tid
      (fun u => (u.revoke_auth_key kstr).2)).get_tenant_by_auth_key kstr now
      = none := by
  have hget : (s.updateStored tid (fun u => (u.revoke_auth_key kstr).2)).get_tenant tid
      = some ((t.revoke_auth_key kstr).2) := by
    simp [TenantStore.get_tenant, TenantStore.updateStored, dget_dupdate, hstored]
  simp only [TenantStore.get_tenant_by_auth_key, TenantStore.updateStored] at hget ⊢
  rw [hindex]
  by_cases htid : tid = ""
  · simp [htid]
  · simp only [ne_eq, htid, not_false_eq_true, if_true, hget]
    cases hfind : ((t.revoke_auth_key kstr).2).get_valid_auth_key now with
    | none => simp
    | some k0 =>
      have hfind2 : ((t.revoke_auth_key kstr).2).auth_keys.find?
          (fun k => k.is_valid now) = some k0 := hfind
      have hmem : k0 ∈ ((t.revoke_auth_key kstr).2).auth_keys :=
        List.mem_of_find?_eq_some hfind2
      have hvalid : k0.is_valid now = true := by
        simpa using List.find?_some hfind2
      have hactive : k0.active = true := by
        simp [TenantAuthKey.is_valid] at hvalid
        exact hvalid.1
      have hne : ¬ k0.key = kstr := by
        intro hkey
        have : k0.active = false := by
          have := revokeFirst_no_valid_match t.auth_keys kstr hnodup k0
            (by simpa [Tenant.revoke_auth_key] using hmem) hkey
          exact this
        rw [this] at hactive
        exact Bool.false_ne_true hactive
      simp [hne]

/-- C6 witness: after revoking `K1`, looking it up yields none, while the
tenant itself is still active and `K2` is still its valid key. -/
theorem c6_witness :
    dget c6_s.tenants "t6" = some c6_t ∧
    dget c6_s.auth_key_to_tenant "K1" = some "t6" ∧
    (c6_s.updateStored "t6"
      (fun u => (u.revoke_auth_key "K1").2)).get_tenant_by_auth_key "K1" 0 = none ∧
    ((c6_t.revoke_auth_key "K1").2).active = true ∧
    ((c6_t.revoke_auth_key "K1").2).get_valid_auth_key 0 = some c6_k2 := by
  refine ⟨by decide, by decide, ?_, by decide, by decide⟩
  exact c6_revoked_key_resolves_none c6_s "t6" c6_t "K1" 0
    (by decide) (by decide) (by decide)

/-- C5: in a store where no active tenant already holds `domain` (the data
model's domain-uniqueness invariant) and the fresh uuid `idTok` is unused,
`create_tenant(name, domain)` followed by `get_tenant_by_domain(domain)`
returns exactly the created (active) tenant, and returns none after
`deactivate_tenant` of that tenant. -/
theorem c5_domain_roundtrip (s : TenantStore) (name domain : String)
    (md : List (String × String)) (now : Nat) (idTok keyTok : String)
    (hdom : ∀ p ∈ s.tenants, ¬(p.2.domain = domain ∧ p.2.active = true))
    (hid : dget s.tenants idTok = none) :
    (s.create_tenant name domain md now idTok keyTok).2.get_tenant_by_domain domain
      = some (s.create_tenant name domain md now idTok keyTok).1 ∧
    (s.create_tenant name domain md now idTok keyTok).1.active = true ∧
    (((s.create_tenant name domain md now idTok keyTok).2).deactivate_tenant
        (s.create_tenant name domain md now idTok keyTok).1.id).2.get_tenant_by_domain
        domain = none := by
  have hpred : ∀ t ∈ s.tenants.map Prod.snd,
      ¬((fun t => t.domain = domain && t.active) t = true) := by
    intro t ht
    obtain ⟨p, hp, hpt⟩ := List.mem_map.mp ht
    intro hcontra
    simp only [Bool.and_eq_true, decide_eq_true_eq] at hcontra
    exact hdom p hp ⟨hpt ▸ hcontra.1, hpt ▸ hcontra.2⟩
  have htenants : (s.create_tenant name domain md now idTok keyTok).2.tenants
      = s.tenants ++ [(idTok, Tenant.create name domain md now idTok keyTok)] := by
    simp only [TenantStore.create_tenant]
    exact dinsert_of_dget_none s.tenants idTok _ hid
  have hfind_old : (s.tenants.map Prod.snd).find?
      (fun t => t.domain = domain && t.active) = none :=
    List.find?_eq_none.mpr hpred
  have ht1 : (s.create_tenant name domain md now idTok keyTok).1
      = Tenant.create name domain md now idTok keyTok := rfl
  have hid1 : (s.create_tenant name domain md now idTok keyTok).1.id = idTok := rfl
  refine ⟨?_, rfl, ?_⟩
  · simp only [TenantStore.get_tenant_by_domain, htenants, List.map_append,
      List.find?_append, hfind_old, Option.none_or, ht1]
    simp [Tenant.create]
  · have hstored : dget ((s.create_tenant name domain md now idTok keyTok).2.tenants)
        idTok = some (Tenant.create name domain md now idTok keyTok) := by
      rw [htenants, dget_append, hid]
      simp [dget]
    simp only [TenantStore.deactivate_tenant, TenantStore.get_tenant, hid1]
    rw [hstored]
    simp only [TenantStore.updateStored, TenantStore.get_tenant_by_domain]
    rw [htenants, dupdate_append, dupdate_of_dget_none s.tenants _ _ hid]
    simp only [dupdate, if_pos rfl]
    rw [List.map_append, List.find?_append, hfind_old, Option.none_or]
    simp [Tenant.deactivate]

/-- C5 witness: the round-trip on a fresh store. -/
theorem c5_witness :
    (TenantStore.empty.create_tenant "E" "e.local" [] 0 "t5" "K5").2.get_tenant_by_domain
      "e.local"
      = some (TenantStore.empty.create_tenant "E" "e.local" [] 0 "t5" "K5").1 ∧
    (TenantStore.empty.create_tenant "E" "e.local" [] 0 "t5" "K5").1.active = true ∧
    (((TenantStore.empty.create_tenant "E" "e.local" [] 0 "t5" "K5").2).deactivate_tenant
        (TenantStore.empty.create_tenant "E" "e.local" [] 0 "t5" "K5").1.id).2.get_tenant_by_domain
        "e.local" = none := by
  exact c5_domain_roundtrip TenantStore.empty "E" "e.local" [] 0 "t5" "K5"
    (by simp [TenantStore.empty]) (by simp [TenantStore.empty, dget])

/-- C2: tenant resolution tries the auth-key rule, then the domain rule, then
the id rule, first match wins; if no rule yields a tenant the middleware
rejects 401 before any handler runs (the outcome is handler-independent), if
the resolved tenant is inactive it rejects 403 (also handler-independent), an
active resolved tenant reaches the handler, and the two rejections are
distinct. -/
theorem c2_resolution_priority_and_rejection {ρ : Type} (s : TenantStore)
    (req : Request) (now : Nat) (handler h2 : TenantContext → ρ) :
    (extract_tenant s req now
      = ((rule_auth_key s req now).or
          ((rule_host_domain s req).or (rule_tenant_id s req)))) ∧
    (extract_tenant s req now = none →
      dispatch s req now handler = .rejected 401 ∧
      dispatch s req now handler = dispatch s req now h2) ∧
    (∀ t, extract_tenant s req now = some t → t.active = false →
      dispatch s req now handler = .rejected 403 ∧
      dispatch s req now handler = dispatch s req now h2) ∧
    (∀ t, extract_tenant s req now = some t → t.active = true →
      dispatch s req now handler
        = .handled (handler { tenant_id := t.id, tenant := t })) ∧
    ((DispatchOutcome.rejected 401 : DispatchOutcome ρ)
      ≠ (DispatchOutcome.rejected 403 : DispatchOutcome ρ)) := by
  refine ⟨?_, ?_, ?_, ?_, by simp⟩
  · show (match rule_auth_key s req now with
          | some t => some t
          | none =>
            match rule_host_domain s req with
            | some t => some t
            | none => rule_tenant_id s req)
        = (rule_auth_key s req now).or
            ((rule_host_domain s req).or (rule_tenant_id s req))
    cases rule_auth_key s req now <;> cases rule_host_domain s req <;>
      simp [Option.or]
  · intro h
    simp [dispatch, h]
  · intro t h hact
    simp [dispatch, h, hact]
  · intro t h hact
    simp [dispatch, h, hact]

/-- C2 witness: the theorem applied at concrete requests — no header ⇒ 401,
inactive tenant by id ⇒ 403, valid auth key ⇒ the handler runs. -/
theorem c2_witness :
    dispatch c2_s c2_req401 0 (fun c => c.tenant_id) = .rejected 401 ∧
    dispatch c2_s c2_req403 0 (fun c => c.tenant_id) = .rejected 403 ∧
    dispatch c2_s c2_reqOK 0 (fun c => c.tenant_id) = .handled "t2a" := by
  refine ⟨?_, ?_, ?_⟩
  · exact ((c2_resolution_priority_and_rejection c2_s c2_req401 0
      (fun c => c.tenant_id) (fun c => c.tenant_id)).2.1 (by decide)).1
  · exact ((c2_resolution_priority_and_rejection c2_s c2_req403 0
      (fun c => c.tenant_id) (fun c => c.tenant_id)).2.2.1 c2_tI
      (by decide) (by decide)).1
  · exact (c2_resolution_priority_and_rejection c2_s c2_reqOK 0
      (fun c => c.tenant_id) (fun c => c.tenant_id)).2.2.2.1 c2_tA
      (by decide) (by decide)

/-- C3: the per-request current-user slot is a single module-level variable
(`_current_user` in src/auth.py), so under this interleaving of two
concurrent requests with distinct users, request A's mid-request
`get_current_user` observes request B's user, and request B then observes no
user at all — the slots are not isolated per concurrent request. -/
theorem c3_global_slot_leaks :
    IsInterleaving c3_sched (requestScript c3_alice) (requestScript c3_bob) ∧
    c3_alice ≠ c3_bob ∧
    runSchedule c3_sched none = [(false, some c3_bob), (true, none)] := by
  refine ⟨⟨by decide, by decide⟩, by decide, by decide⟩

/-- `reactivate` always leaves the tenant active (it is the identity on an
already-active tenant). -/
theorem reactivate_active (t : Tenant) (now : Nat) (tok : String) :
    (t.reactivate now tok).active = true := by
  unfold Tenant.reactivate
  by_cases h : t.active = true
  · simp [h]
  · simp only [h, if_false]
    cases hv : ({ t with active := true } : Tenant).get_valid_auth_key now <;>
      simp [hv, Tenant.generate_new_auth_key]

/-- Looking up the key index produced by `reactivate_tenant`'s re-indexing
loop yields either the reactivated tenant's id or an entry of the original
index. -/
theorem dget_foldl_cond_insert (keys : List TenantAuthKey) (now : Nat)
    (tid : String) (ix0 : List (String × String)) (x i : String)
    (h : dget (keys.foldl
      (fun ix k => if k.is_valid now then dinsert ix k.key tid else ix) ix0) x
      = some i) :
    i = tid ∨ dget ix0 x = some i := by
  induction keys generalizing ix0 with
  | nil => exact Or.inr h
  | cons k keys ih =>
    simp only [List.foldl_cons] at h
    rcases ih _ h with h' | h'
    · exact Or.inl h'
    · by_cases hv : k.is_valid now = true
      · rw [hv, if_pos rfl] at h'
        by_cases hx : x = k.key
        · subst hx
          rw [dget_dinsert_self] at h'
          exact Or.inl (Option.some.inj h').symm
        · rw [dget_dinsert_ne _ _ _ _ hx] at h'
          exact Or.inr h'
      · rw [Bool.not_eq_true] at hv
        rw [hv] at h'
        simp only [Bool.false_eq_true, if_false] at h'
        exact Or.inr h'

theorem keyInvariant_empty : KeyInvariant TenantStore.empty := by
  intro i t h
  simp [TenantStore.empty, dget] at h

theorem keyInvariant_create (s : TenantStore) (name domain : String)
    (md : List (String × String)) (now : Nat) (idTok keyTok : String)
    (ih : KeyInvariant s) :
    KeyInvariant (s.create_tenant name domain md now idTok keyTok).2 := by
  intro i t hstore hinact x hix k hk hkey
  have htenants : (s.create_tenant name domain md now idTok keyTok).2.tenants
      = dinsert s.tenants idTok (Tenant.create name domain md now idTok keyTok) := rfl
  have hindex : (s.create_tenant name domain md now idTok keyTok).2.auth_key_to_tenant
      = dinsert s.auth_key_to_tenant keyTok idTok := rfl
  rw [htenants] at hstore
  rw [hindex] at hix
  by_cases hi : i = idTok
  · rw [hi] at hstore
    rw [dget_dinsert_self] at hstore
    have ht : t = Tenant.create name domain md now idTok keyTok :=
      (Option.some.inj hstore).symm
    rw [ht] at hinact
    simp [Tenant.create] at hinact
  · rw [dget_dinsert_ne _ _ _ _ hi] at hstore
    by_cases hx : x = keyTok
    · subst hx
      rw [dget_dinsert_self] at hix
      exact absurd (Option.some.inj hix).symm hi
    · rw [dget_dinsert_ne _ _ _ _ hx] at hix
      exact ih i t hstore hinact x hix k hk hkey

theorem keyInvariant_generate (s : TenantStore) (tid : String) (now days : Nat)
    (tok : String) (hfresh : dget s.auth_key_to_tenant tok = none)
    (ih : KeyInvariant s) :
    KeyInvariant (s.updateStored tid
      (fun u => (u.generate_new_auth_key now days tok).2)) := by
  intro i t' hstore hinact x hix k hk hkey
  simp only [TenantStore.updateStored] at hstore hix
  rw [dget_dupdate] at hstore
  by_cases hi : i = tid
  · rw [if_pos hi] at hstore
    cases hget : dget s.tenants i with
    | none => rw [hget] at hstore; exact absurd hstore (by simp)
    | some t =>
      rw [hget] at hstore
      have ht' : t' = (t.generate_new_auth_key now days tok).2 :=
        (Option.some.inj hstore).symm
      have hact : t.active = false := by
        rw [ht'] at hinact
        simpa [Tenant.generate_new_auth_key] using hinact
      rw [ht'] at hk
      simp only [Tenant.generate_new_auth_key, List.mem_append,
        List.mem_singleton] at hk
      rcases hk with hk | hk
      · exact ih i t hget hact x hix k hk hkey
      · exfalso
        have : k.key = tok := by rw [hk]; rfl
        rw [this] at hkey
        rw [← hkey] at hix
        rw [hfresh] at hix
        exact Option.noConfusion hix
  · rw [if_neg hi] at hstore
    exact ih i t' hstore hinact x hix k hk hkey

theorem keyInvariant_revoke (s : TenantStore) (tid kstr : String)
    (ih : KeyInvariant s) :
    KeyInvariant (s.updateStored tid (fun u => (u.revoke_auth_key kstr).2)) := by
  intro i t' hstore hinact x hix k hk hkey
  simp only [TenantStore.updateStored] at hstore hix
  rw [dget_dupdate] at hstore
  by_cases hi : i = tid
  · rw [if_pos hi] at hstore
    cases hget : dget s.tenants i with
    | none => rw [hget] at hstore; exact absurd hstore (by simp)
    | some t =>
      rw [hget] at hstore
      have ht' : t' = (t.revoke_auth_key kstr).2 := (Option.some.inj hstore).symm
      have hact : t.active = false := by
        rw [ht'] at hinact
        simpa [Tenant.revoke_auth_key] using hinact
      rw [ht'] at hk
      obtain ⟨k0, hk0, hkeyeq, hactimp⟩ := revokeFirst_mem t.auth_keys kstr k
        (by simpa [Tenant.revoke_auth_key] using hk)
      by_cases hka : k.active = true
      · have hk0a : k0.active = true := hactimp hka
        have : k0.active = false :=
          ih i t hget hact x hix k0 hk0 (hkeyeq ▸ hkey)
        rw [this] at hk0a
        exact absurd hk0a (by simp)
      · rwa [Bool.not_eq_true] at hka
  · rw [if_neg hi] at hstore
    exact ih i t' hstore hinact x hix k hk hkey

theorem keyInvariant_deactivate (s : TenantStore) (tid : String)
    (ih : KeyInvariant s) :
    KeyInvariant (s.deactivate_tenant tid).2 := by
  intro i t' hstore hinact x hix k hk hkey
  unfold TenantStore.deactivate_tenant at hstore hix
  cases hm : s.get_tenant tid with
  | none =>
    rw [hm] at hstore hix
    exact ih i t' hstore hinact x hix k hk hkey
  | some t0 =>
    rw [hm] at hstore hix
    simp only [TenantStore.updateStored] at hstore hix
    rw [dget_dupdate] at hstore
    by_cases hi : i = tid
    · rw [if_pos hi] at hstore
      cases hget : dget s.tenants i with
      | none => rw [hget] at hstore; exact absurd hstore (by simp)
      | some t =>
        rw [hget] at hstore
        have ht' : t' = t.deactivate := (Option.some.inj hstore).symm
        rw [ht'] at hk
        simp only [Tenant.deactivate, List.mem_map] at hk
        obtain ⟨k0, _, hk0⟩ := hk
        rw [← hk0]
        rfl
    · rw [if_neg hi] at hstore
      exact ih i t' hstore hinact x hix k hk hkey

theorem keyInvariant_reactivate (s : TenantStore) (tid : String) (now : Nat)
    (tok : String) (ih : KeyInvariant s) :
    KeyInvariant (s.reactivate_tenant tid now tok).2 := by
  intro i t' hstore hinact x hix k hk hkey
  unfold TenantStore.reactivate_tenant at hstore hix
  cases hm : s.get_tenant tid with
  | none =>
    rw [hm] at hstore hix
    exact ih i t' hstore hinact x hix k hk hkey
  | some t0 =>
    rw [hm] at hstore hix
    simp only [TenantStore.updateStored] at hstore hix
    rw [dget_dupdate] at hstore
    by_cases hi : i = tid
    · rw [if_pos hi] at hstore
      cases hget : dget s.tenants i with
      | none => rw [hget] at hstore; exact absurd hstore (by simp)
      | some t =>
        rw [hget] at hstore
        have ht' : t' = t0.reactivate now tok := (Option.some.inj hstore).symm
        exfalso
        rw [ht', reactivate_active] at hinact
        exact absurd hinact (by simp)
    · rw [if_neg hi] at hstore
      rcases dget_foldl_cond_insert _ now tid _ x i hix with h' | h'
      · exact absurd h' hi
      · exact ih i t' hstore hinact x h' k hk hkey

/-- Every reachable store state satisfies the key-index safety invariant. -/
theorem reachable_keyInvariant (s : TenantStore) (h : Reachable s) :
    KeyInvariant s := by
  induction h with
  | empty => exact keyInvariant_empty
  | create s name domain md now idTok keyTok _ ih =>
    exact keyInvariant_create s name domain md now idTok keyTok ih
  | generate s tid now days tok _ hfresh ih =>
    exact keyInvariant_generate s tid now days tok hfresh ih
  | revoke s tid kstr _ ih => exact keyInvariant_revoke s tid kstr ih
  | deactivate s tid _ ih => exact keyInvariant_deactivate s tid ih
  | reactivate s tid now tok _ ih => exact keyInvariant_reactivate s tid now tok ih

/-- C10: in every reachable tenant-store state, `get_tenant_by_auth_key`
never returns an inactive tenant — key-based resolution fails closed for
deactivated tenants. -/
theorem c10_lookup_never_inactive (s : TenantStore) (hr : Reachable s)
    (x : String) (now : Nat) (t : Tenant)
    (h : s.get_tenant_by_auth_key x now = some t) : t.active = true := by
  have hinv := reachable_keyInvariant s hr
  unfold TenantStore.get_tenant_by_auth_key at h
  cases hix : dget s.auth_key_to_tenant x with
  | none => simp [hix] at h
  | some tid =>
    by_cases htid : tid = ""
    · simp [hix, htid] at h
    · cases hget : s.get_tenant tid with
      | none => simp [hix, htid, hget] at h
      | some t0 =>
        cases hfind : t0.get_valid_auth_key now with
        | none => simp [hix, htid, hget, hfind] at h
        | some k =>
          by_cases hkey : k.key = x
          · have ht : t0 = t := by
              simp [hix, htid, hget, hfind, hkey] at h
              exact h
            subst ht
            by_contra hact
            rw [Bool.not_eq_true] at hact
            have hfind2 : t0.auth_keys.find? (fun k => k.is_valid now) = some k :=
              hfind
            have hmem : k ∈ t0.auth_keys := List.mem_of_find?_eq_some hfind2
            have hvalid : k.is_valid now = true := by
              simpa using List.find?_some hfind2
            have hka : k.active = true := by
              simp [TenantAuthKey.is_valid] at hvalid
              exact hvalid.1
            have : k.active = false := hinv tid t0 hget hact x hix k hmem hkey
            rw [this] at hka
            exact absurd hka (by simp)
          · simp [hix, htid, hget, hfind, hkey] at h

/-- C10 witness: the theorem applied to a concrete reachable store where the
lookup succeeds. -/
theorem c10_witness :
    c10_s.get_tenant_by_auth_key "KX" 0 = some c10_t ∧ c10_t.active = true := by
  refine ⟨by decide, ?_⟩
  exact c10_lookup_never_inactive c10_s
    (Reachable.create TenantStore.empty "M" "m.local" [] 0 "tX" "KX"
      Reachable.empty) "KX" 0 c10_t (by decide)

/-- C1 counterexample: a reachable state (create, then generate a new key on
the active stored tenant) with a stored active tenant and a valid auth key
`K2` of it, where `get_tenant_by_auth_key` on `K2`'s token does **not**
return the tenant: the fresh key is absent from the key index, and the
defensive re-check only accepts the tenant's first valid key. -/
theorem c1_counterexample :
    Reachable c1_s2 ∧
    dget c1_s2.tenants "tO" = some c1_t2 ∧
    c1_t2.active = true ∧
    c1_k2 ∈ c1_t2.auth_keys ∧
    c1_k2.is_valid 0 = true ∧
    c1_s2.get_tenant_by_auth_key c1_k2.key 0 ≠ some c1_t2 := by
  refine ⟨?_, by decide, by decide, by decide, by decide, by decide⟩
  exact Reachable.generate c1_s1 "tO" 0 365 "K2"
    (Reachable.create TenantStore.empty "M1" "m1.local" [] 0 "tO" "K1"
      Reachable.empty) (by decide)

/-- C1 (amended): only the earliest-created still-valid key of a stored
active tenant resolves it through the store. After `generate_new_auth_key`
on such a tenant whose first valid key `k` is indexed, `k` still resolves
the (updated) tenant, but the newly generated fresh key resolves nothing;
and in any store, a key that resolves a tenant is that tenant's first valid
key. -/
theorem c1_first_valid_key_resolves (s : TenantStore) (tid : String)
    (t : Tenant) (k : TenantAuthKey) (now days : Nat) (tok : String)
    (hstored : dget s.tenants tid = some t)
    (htid : tid ≠ "")
    (hact : t.active = true)
    (hindex : dget s.auth_key_to_tenant k.key = some tid)
    (hfirst : t.get_valid_auth_key now = some k)
    (hfresh : dget s.auth_key_to_tenant tok = none) :
    ((s.updateStored tid
      (fun u => (u.generate_new_auth_key now days tok).2)).get_tenant_by_auth_key
        k.key now = some ((t.generate_new_auth_key now days tok).2)) ∧
    ((s.updateStored tid
      (fun u => (u.generate_new_auth_key now days tok).2)).get_tenant_by_auth_key
        tok now = none) ∧
    (∀ x t', s.get_tenant_by_auth_key x now = some t' →
      ∃ k', t'.get_valid_auth_key now = some k' ∧ k'.key = x) := by
  have hixsame : (s.updateStored tid
      (fun u => (u.generate_new_auth_key now days tok).2)).auth_key_to_tenant
      = s.auth_key_to_tenant := rfl
  have hget' : (s.updateStored tid
      (fun u => (u.generate_new_auth_key now days tok).2)).get_tenant tid
      = some ((t.generate_new_auth_key now days tok).2) := by
    simp [TenantStore.get_tenant, TenantStore.updateStored, dget_dupdate, hstored]
  have hfind' : ((t.generate_new_auth_key now days tok).2).get_valid_auth_key
      now = some k := by
    have h1 : t.auth_keys.find? (fun k => k.is_valid now) = some k := hfirst
    show ((t.auth_keys ++ [TenantAuthKey.create now days tok]).find?
      (fun k => k.is_valid now)) = some k
    rw [List.find?_append, h1]
    rfl
  refine ⟨?_, ?_, ?_⟩
  · unfold TenantStore.get_tenant_by_auth_key
    rw [hixsame]
    simp [hindex, htid, hget', hfind']
  · unfold TenantStore.get_tenant_by_auth_key
    rw [hixsame, hfresh]
  · intro x t' h
    unfold TenantStore.get_tenant_by_auth_key at h
    cases hix : dget s.auth_key_to_tenant x with
    | none => simp [hix] at h
    | some tid' =>
      by_cases htid' : tid' = ""
      · simp [hix, htid'] at h
      · cases hg : s.get_tenant tid' with
        | none => simp [hix, htid', hg] at h
        | some t0 =>
          cases hf : t0.get_valid_auth_key now with
          | none => simp [hix, htid', hg, hf] at h
          | some k' =>
            by_cases hk' : k'.key = x
            · have : t0 = t' := by
                simp [hix, htid', hg, hf, hk'] at h
                exact h
              subst this
              exact ⟨k', hf, hk'⟩
            · simp [hix, htid', hg, hf, hk'] at h

/-- C1 witness: the amended theorem at a concrete store — after generating
`KW2`, the old key `KW` still resolves the updated tenant and `KW2` resolves
nothing. -/
theorem c1_witness :
    ((c1w_s.updateStored "tW"
      (fun u => (u.generate_new_auth_key 0 365 "KW2").2)).get_tenant_by_auth_key
        c1w_k.key 0 = some ((c1w_t.generate_new_auth_key 0 365 "KW2").2)) ∧
    ((c1w_s.updateStored "tW"
      (fun u => (u.generate_new_auth_key 0 365 "KW2").2)).get_tenant_by_auth_key
        "KW2" 0 = none) := by
  have h := c1_first_valid_key_resolves c1w_s "tW" c1w_t c1w_k 0 365 "KW2"
    (by decide) (by decide) (by decide) (by decide) (by decide) (by decide)
  exact ⟨h.1, h.2.1⟩

end Spec2Proof
